import Mathlib

/-!
Verification development for the xpertly workflow execution engine
(Rust workspace: `common`, `worker`, `api` crates).

Each section shallowly embeds one component of the source:
machine floats are modelled as exact rationals over the decimal literals
actually used, UUIDs as natural numbers, and awaited HTTP calls as
explicit environment parameters.  Rust `panic!`/`unwrap` failures are a
distinct failure kind from returned `anyhow` errors.
-/

/-- Failure kind: a returned error (`anyhow::bail!`) versus a Rust panic
(`unwrap`/`panic!`). -/
inductive FailKind where
  | err : String → FailKind
  | panicF : String → FailKind
deriving DecidableEq, Repr

/-! ## Expression evaluator (`common/src/worker.rs`) -/

/-- `Operator` from `common/src/worker.rs`: AND / OR combinators. -/
inductive OperatorL where
  | and : OperatorL
  | or : OperatorL
deriving DecidableEq, Repr

/-- `Comparitor` from `common/src/worker.rs`. -/
inductive ComparitorL where
  | eqC | neC | gtC | geC | ltC | leC
  | containsC | notContainsC | beginsWithC | notBeginsWithC | endsWithC | notEndsWithC
deriving DecidableEq, Repr

/-- `Condition` from `common/src/worker.rs`. -/
structure ConditionL where
  op : Option OperatorL
  comparitor : ComparitorL
  var1 : String
  var2 : String
deriving DecidableEq, Repr

/-- `ConditionGroup` from `common/src/worker.rs`. -/
structure ConditionGroupL where
  op : Option OperatorL
  conditions : List ConditionL
deriving DecidableEq, Repr

/-- Digit value of an ASCII digit character. -/
def digVal (c : Char) : Nat := c.toNat - 48

/-- Natural number denoted by a list of ASCII digit characters. -/
def natOfDigits (l : List Char) : Nat := l.foldl (fun a c => a * 10 + digVal c) 0

/-- `str::parse::<f64>` from the Rust standard library, modelled over plain
decimal literals (optional sign, integer digits, optional fraction, optional
decimal exponent) as exact rationals; the special forms `inf`/`NaN` are not
modelled and no theorem instantiates them. -/
def parseFloat (s : String) : Option Rat :=
  let cs := s.data
  let signed : Int × List Char :=
    match cs with
    | c :: t => if c = '-' then (-1, t) else if c = '+' then (1, t) else (1, cs)
    | [] => (1, [])
  let sign := signed.1
  let rest := signed.2
  let intPart := rest.takeWhile Char.isDigit
  let afterInt := rest.dropWhile Char.isDigit
  let fracState : Option (List Char × List Char) :=
    match afterInt with
    | '.' :: t =>
      let fp := t.takeWhile Char.isDigit
      some (fp, t.dropWhile Char.isDigit)
    | _ => some ([], afterInt)
  match fracState with
  | none => none
  | some (fracPart, afterFrac) =>
    if intPart.isEmpty && fracPart.isEmpty then none
    else
      let mantissa : Rat :=
        (sign : Rat) *
          ((natOfDigits intPart : Rat) + (natOfDigits fracPart : Rat) / ((10 : Rat) ^ fracPart.length))
      match afterFrac with
      | [] => some mantissa
      | e :: t =>
        if e = 'e' ∨ e = 'E' then
          let esigned : Int × List Char :=
            match t with
            | c :: t2 => if c = '-' then (-1, t2) else if c = '+' then (1, t2) else (1, t)
            | [] => (1, [])
          let edigits := esigned.2
          if edigits.isEmpty ∨ ¬ edigits.all Char.isDigit then none
          else
            let ex : Int := esigned.1 * (natOfDigits edigits : Int)
            some (mantissa * (10 : Rat) ^ ex)
        else none

/-- `str::parse::<bool>`: exactly `true` or `false`. -/
def parseBool (s : String) : Option Bool :=
  if s = "true" then some true else if s = "false" then some false else none

/-- `chrono::DateTime<Utc>` RFC3339 parse, modelled as a recognizer for the
form `YYYY-MM-DDTHH:MM:SSZ`, encoded into a single integer that preserves
chronological order.  None of the strings used by a theorem below parses as a
date. -/
def parseDate (s : String) : Option Int :=
  match s.data with
  | [y1, y2, y3, y4, d1, m1, m2, d2, a1, a2, t1, h1, h2, c1, n1, n2, c2, s1, s2, z1] =>
    if d1 = '-' ∧ d2 = '-' ∧ t1 = 'T' ∧ c1 = ':' ∧ c2 = ':' ∧ z1 = 'Z' ∧
        [y1, y2, y3, y4, m1, m2, a1, a2, h1, h2, n1, n2, s1, s2].all Char.isDigit then
      some ((((((natOfDigits [y1, y2, y3, y4] * 13 + natOfDigits [m1, m2]) * 32 +
        natOfDigits [a1, a2]) * 24 + natOfDigits [h1, h2]) * 60 +
        natOfDigits [n1, n2]) * 60 + natOfDigits [s1, s2] : Nat) : Int)
    else none
  | _ => none

/-- `Var` from `common/src/worker.rs`: a typed operand. -/
inductive VarL where
  | strV : String → VarL
  | numV : Rat → VarL
  | dateV : Int → VarL
  | boolV : Bool → VarL
deriving DecidableEq, Repr

/-- `Condition::parse_var`: classify an operand as date, number, boolean or
string, in that order. -/
def parseVar (v : String) : VarL :=
  match parseDate v with
  | some d => .dateV d
  | none =>
    match parseFloat v with
    | some q => .numV q
    | none =>
      match parseBool v with
      | some b => .boolV b
      | none => .strV v

/-- `std::mem::discriminant` comparison on `Var`. -/
def varSameKind : VarL → VarL → Bool
  | .strV _, .strV _ => true
  | .numV _, .numV _ => true
  | .dateV _, .dateV _ => true
  | .boolV _, .boolV _ => true
  | _, _ => false

/-- Derived `PartialEq` on `Var` (only reached on same-kind operands). -/
def varEqB : VarL → VarL → Bool
  | .strV a, .strV b => a = b
  | .numV a, .numV b => a = b
  | .dateV a, .dateV b => a = b
  | .boolV a, .boolV b => a = b
  | _, _ => false

/-- Variant index used by the derived `PartialOrd` for cross-variant
comparisons (never reached after the discriminant check). -/
def varIdx : VarL → Nat
  | .strV _ => 0
  | .numV _ => 1
  | .dateV _ => 2
  | .boolV _ => 3

/-- Derived `PartialOrd::lt` on `Var`. -/
def varLtB : VarL → VarL → Bool
  | .strV a, .strV b => a < b
  | .numV a, .numV b => a < b
  | .dateV a, .dateV b => a < b
  | .boolV a, .boolV b => ¬ a ∧ b
  | a, b => varIdx a < varIdx b

/-- Derived `PartialOrd::le` on `Var`. -/
def varLeB (a b : VarL) : Bool := varLtB a b ∨ varEqB a b

/-- Rust `str::contains` (substring containment). -/
def strContains (s pat : String) : Bool :=
  (List.range (s.data.length + 1)).any (fun i => pat.data.isPrefixOf (s.data.drop i))

/-- `Condition::parse_to_comparable`: parse both operands and fail on a
discriminant mismatch. -/
def parseToComparable (v1 v2 : String) : Except String (VarL × VarL) :=
  let a := parseVar v1
  let b := parseVar v2
  if varSameKind a b then .ok (a, b)
  else .error "Cannot compare variables of different types"

/-- `Condition::eval` from `common/src/worker.rs`: typed comparison for the
order/equality comparators, literal string comparison for the string
comparators. -/
def ConditionL.eval (c : ConditionL) : Except String Bool :=
  match c.comparitor with
  | .eqC => do let (a, b) ← parseToComparable c.var1 c.var2; pure (varEqB a b)
  | .neC => do let (a, b) ← parseToComparable c.var1 c.var2; pure (¬ varEqB a b)
  | .gtC => do let (a, b) ← parseToComparable c.var1 c.var2; pure (varLtB b a)
  | .geC => do let (a, b) ← parseToComparable c.var1 c.var2; pure (varLeB b a)
  | .ltC => do let (a, b) ← parseToComparable c.var1 c.var2; pure (varLtB a b)
  | .leC => do let (a, b) ← parseToComparable c.var1 c.var2; pure (varLeB a b)
  | .containsC => .ok (strContains c.var1 c.var2)
  | .notContainsC => .ok (¬ strContains c.var1 c.var2)
  | .beginsWithC => .ok (c.var1.startsWith c.var2)
  | .notBeginsWithC => .ok (¬ c.var1.startsWith c.var2)
  | .endsWithC => .ok (c.var1.endsWith c.var2)
  | .notEndsWithC => .ok (¬ c.var1.endsWith c.var2)

/-- The loop body of `ConditionGroup::eval`: `result` is the accumulator and
`oper` the operator of the preceding condition (`None` initially); the Rust
`&&`/`||` short-circuit, so the condition is not evaluated when the
accumulator already decides the combination. -/
def condFoldGo : Bool → Option OperatorL → List ConditionL → Except String Bool
  | result, _, [] => .ok result
  | result, oper, c :: rest =>
    match oper with
    | some .and =>
      if result then
        match c.eval with
        | .error e => .error e
        | .ok v => condFoldGo v c.op rest
      else condFoldGo false c.op rest
    | some .or =>
      if result then condFoldGo true c.op rest
      else
        match c.eval with
        | .error e => .error e
        | .ok v => condFoldGo v c.op rest
    | none =>
      match c.eval with
      | .error e => .error e
      | .ok v => condFoldGo v c.op rest

/-- `ConditionGroup::eval` from `common/src/worker.rs`. -/
def ConditionGroupL.eval (g : ConditionGroupL) : Except String Bool :=
  condFoldGo true none g.conditions

/-- The loop body of `Conditional::eval` (`worker/src/task/conditional/mod.rs`):
each group is combined using that group's own operator (no operator
tracking), again with Rust short-circuit `&&`/`||`. -/
def groupFoldGo : Bool → List ConditionGroupL → Except String Bool
  | result, [] => .ok result
  | result, g :: rest =>
    match g.op with
    | some .and =>
      if result then
        match g.eval with
        | .error e => .error e
        | .ok v => groupFoldGo v rest
      else groupFoldGo false rest
    | some .or =>
      if result then groupFoldGo true rest
      else
        match g.eval with
        | .error e => .error e
        | .ok v => groupFoldGo v rest
    | none =>
      match g.eval with
      | .error e => .error e
      | .ok v => groupFoldGo v rest

/-- `Conditional::eval` from `worker/src/task/conditional/mod.rs`. -/
def conditionalEval (expression : List ConditionGroupL) : Except String Bool :=
  groupFoldGo true expression

/-- Combination step as the claim words it: AND/OR of accumulator and value,
an absent operator meaning the value replaces the accumulator. -/
def claimCombine (oper : Option OperatorL) (acc v : Bool) : Bool :=
  match oper with
  | some .and => acc && v
  | some .or => acc || v
  | none => v

/-- Claim C2's stated semantics for a condition list: a non-short-circuiting
left fold with seed `true`, every condition evaluated, each combined with the
accumulator using the operator of the preceding condition. -/
def claimCondGo : Bool → Option OperatorL → List ConditionL → Except String Bool
  | acc, _, [] => .ok acc
  | acc, oper, c :: rest => do
    let v ← c.eval
    claimCondGo (claimCombine oper acc v) c.op rest

/-- Claim C2's stated semantics for a group. -/
def claimGroupEval (g : ConditionGroupL) : Except String Bool :=
  claimCondGo true none g.conditions

/-- Claim C2's stated semantics for a whole expression: groups combine the
same way as conditions, using the operator of the preceding group. -/
def claimExprGo : Bool → Option OperatorL → List ConditionGroupL → Except String Bool
  | acc, _, [] => .ok acc
  | acc, oper, g :: rest => do
    let v ← claimGroupEval g
    claimExprGo (claimCombine oper acc v) g.op rest

/-- Claim C2's stated semantics of `Conditional::eval`. -/
def claimConditionalEval (expression : List ConditionGroupL) : Except String Bool :=
  claimExprGo true none expression

/-- A condition that evaluates to `true` without parsing: `ab contains a`. -/
def condTrue : ConditionL := ⟨some .and, .containsC, "ab", "a"⟩

/-- A condition that evaluates to `false` without parsing: `ab contains xy`. -/
def condFalse : ConditionL := ⟨none, .containsC, "ab", "xy"⟩

/-- A condition whose evaluation errors: `1 == abc` parses the operands to a
number and a string, a discriminant mismatch. -/
def condErr : ConditionL := ⟨some .and, .eqC, "1", "abc"⟩

/-- The expression separating the code from claim C2's semantics: the second
group is combined with its own OR in the code but with the first group's AND
under the claim. -/
def exprC2 : List ConditionGroupL :=
  [⟨some .and, [⟨none, .containsC, "ab", "a"⟩]⟩,
   ⟨some .or, [condFalse]⟩]

/-- The claim's own cited group: `[op None v1, op AND v2-errors, op OR v3]`. -/
def citedGroupC2 : List ConditionGroupL :=
  [⟨none, [⟨none, .containsC, "ab", "a"⟩, condErr, ⟨some .or, .containsC, "ab", "a"⟩]⟩]

/-- Amended semantics of a condition step, written from the amended claim:
the preceding condition's operator combines with Rust short-circuit
(`AND` skips evaluation on a false accumulator, `OR` on a true one, an
absent operator replaces the accumulator). -/
def amendedCondStep (st : Bool × Option OperatorL) (c : ConditionL) :
    Except String (Bool × Option OperatorL) :=
  match st.2 with
  | some .and => if st.1 then do let v ← c.eval; pure (v, c.op) else pure (false, c.op)
  | some .or => if st.1 then pure (true, c.op) else do let v ← c.eval; pure (v, c.op)
  | none => do let v ← c.eval; pure (v, c.op)

/-- Amended semantics of a group: short-circuiting left fold of its
conditions with seed `true` and no preceding operator. -/
def amendedGroupEval (g : ConditionGroupL) : Except String Bool :=
  (g.conditions.foldlM amendedCondStep (true, none)).map Prod.fst

/-- Amended semantics of a group step: each group combines under its own
operator, short-circuiting. -/
def amendedGroupStep (acc : Bool) (g : ConditionGroupL) : Except String Bool :=
  match g.op with
  | some .and => if acc then amendedGroupEval g else pure false
  | some .or => if acc then pure true else amendedGroupEval g
  | none => amendedGroupEval g

/-- Amended semantics of `Conditional::eval`, written from the amended
claim's words. -/
def amendedConditionalEval (e : List ConditionGroupL) : Except String Bool :=
  e.foldlM amendedGroupStep true

theorem bindE_ok {α β : Type} (a : α) (f : α → Except String β) :
    (do let x ← Except.ok a; f x) = f a := rfl

theorem bindE_error {α β : Type} (e : String) (f : α → Except String β) :
    (do let x ← (Except.error e : Except String α); f x) = Except.error e := rfl

theorem pureE {α : Type} (a : α) : (pure a : Except String α) = Except.ok a := rfl

theorem mapE_ok {α β : Type} (f : α → β) (a : α) :
    Except.map f (Except.ok a : Except String α) = Except.ok (f a) := rfl

theorem mapE_error {α β : Type} (f : α → β) (e : String) :
    Except.map f (Except.error e : Except String α) = Except.error e := rfl

theorem condFoldGo_eq_amended (l : List ConditionL) :
    ∀ result oper,
      condFoldGo result oper l = (l.foldlM amendedCondStep (result, oper)).map Prod.fst := by
  induction l with
  | nil =>
    intro r o
    simp [condFoldGo, List.foldlM, Except.map, bindE_ok, bindE_error, pureE, mapE_ok, mapE_error]
  | cons c rest ih =>
    intro r o
    match o with
    | none =>
      cases hc : c.eval with
      | error e => simp [condFoldGo, List.foldlM, amendedCondStep, hc, bindE_ok, bindE_error, pureE, mapE_ok, mapE_error]
      | ok v => simp [condFoldGo, List.foldlM, amendedCondStep, hc, ih, bindE_ok, bindE_error, pureE, mapE_ok, mapE_error]
    | some .and =>
      by_cases hr : r
      · subst hr
        cases hc : c.eval with
        | error e => simp [condFoldGo, List.foldlM, amendedCondStep, hc, bindE_ok, bindE_error, pureE, mapE_ok, mapE_error]
        | ok v => simp [condFoldGo, List.foldlM, amendedCondStep, hc, ih, bindE_ok, bindE_error, pureE, mapE_ok, mapE_error]
      · simp only [eq_iff_iff, iff_false] at hr
        simp [condFoldGo, List.foldlM, amendedCondStep, hr, ih, bindE_ok, bindE_error, pureE, mapE_ok, mapE_error]
    | some .or =>
      by_cases hr : r
      · subst hr
        simp [condFoldGo, List.foldlM, amendedCondStep, ih, bindE_ok, bindE_error, pureE, mapE_ok, mapE_error]
      · simp only [eq_iff_iff, iff_false] at hr
        cases hc : c.eval with
        | error e => simp [condFoldGo, List.foldlM, amendedCondStep, hc, hr, bindE_ok, bindE_error, pureE, mapE_ok, mapE_error]
        | ok v => simp [condFoldGo, List.foldlM, amendedCondStep, hc, hr, ih, bindE_ok, bindE_error, pureE, mapE_ok, mapE_error]

theorem groupEval_eq_amended (g : ConditionGroupL) : g.eval = amendedGroupEval g := by
  unfold ConditionGroupL.eval amendedGroupEval
  exact condFoldGo_eq_amended g.conditions true none

theorem groupFoldGo_eq_amended (l : List ConditionGroupL) :
    ∀ result, groupFoldGo result l = l.foldlM amendedGroupStep result := by
  induction l with
  | nil => intro r; simp [groupFoldGo, List.foldlM, pureE]
  | cons g rest ih =>
    intro r
    match ho : g.op with
    | none =>
      cases hg : g.eval with
      | error e =>
        have hg2 : amendedGroupEval g = .error e := by rw [← groupEval_eq_amended, hg]
        simp [groupFoldGo, List.foldlM, amendedGroupStep, ho, hg, hg2, bindE_ok, bindE_error, pureE]
      | ok v =>
        have hg2 : amendedGroupEval g = .ok v := by rw [← groupEval_eq_amended, hg]
        simp [groupFoldGo, List.foldlM, amendedGroupStep, ho, hg, hg2, ih, bindE_ok, bindE_error, pureE]
    | some .and =>
      by_cases hr : r
      · subst hr
        cases hg : g.eval with
        | error e =>
          have hg2 : amendedGroupEval g = .error e := by rw [← groupEval_eq_amended, hg]
          simp [groupFoldGo, List.foldlM, amendedGroupStep, ho, hg, hg2, bindE_ok, bindE_error, pureE]
        | ok v =>
          have hg2 : amendedGroupEval g = .ok v := by rw [← groupEval_eq_amended, hg]
          simp [groupFoldGo, List.foldlM, amendedGroupStep, ho, hg, hg2, ih, bindE_ok, bindE_error, pureE]
      · simp only [eq_iff_iff, iff_false] at hr
        simp [groupFoldGo, List.foldlM, amendedGroupStep, ho, hr, ih, bindE_ok, bindE_error, pureE]
    | some .or =>
      by_cases hr : r
      · subst hr
        simp [groupFoldGo, List.foldlM, amendedGroupStep, ho, ih, bindE_ok, bindE_error, pureE]
      · simp only [eq_iff_iff, iff_false] at hr
        cases hg : g.eval with
        | error e =>
          have hg2 : amendedGroupEval g = .error e := by rw [← groupEval_eq_amended, hg]
          simp [groupFoldGo, List.foldlM, amendedGroupStep, ho, hg, hg2, hr, bindE_ok, bindE_error, pureE]
        | ok v =>
          have hg2 : amendedGroupEval g = .ok v := by rw [← groupEval_eq_amended, hg]
          simp [groupFoldGo, List.foldlM, amendedGroupStep, ho, hg, hg2, hr, ih, bindE_ok, bindE_error, pureE]

/-- C2 counterexample: the code's conditional evaluation is not the claimed
non-short-circuiting preceding-operator fold.  On the two-group expression
`(AND: ab contains a) (OR: ab contains xy)` the code combines the second
group with its own OR against a true accumulator and short-circuits to
`true`, while the claimed semantics combines it with the first group's AND
and yields `false`. -/
theorem c2_counterexample_claimed_fold_differs :
    conditionalEval exprC2 = .ok true ∧ claimConditionalEval exprC2 = .ok false := by
  constructor <;> rfl

/-- C2 amended: conditional evaluation is a short-circuiting left fold with
seed `true`; each condition combines under the operator of the preceding
condition (an absent operator replaces the accumulator; AND skips evaluation
on a false accumulator, OR on a true one), while each group combines under
its OWN operator with the same short-circuit rule.  The claim's cited group
`[op None v1, op AND v2-errors, op OR v3]` still fails evaluation, because
the second condition combines under the first condition's absent operator
and is therefore evaluated. -/
theorem c2_conditional_eval_amended :
    (∀ e : List ConditionGroupL, conditionalEval e = amendedConditionalEval e) ∧
      conditionalEval citedGroupC2 = .error "Cannot compare variables of different types" := by
  refine ⟨fun e => ?_, by rfl⟩
  unfold conditionalEval amendedConditionalEval
  exact groupFoldGo_eq_amended e true

/-! ## JSON values (`serde_json::Value`) -/

/-- `serde_json::Value`, with numbers as exact rationals and objects as
ordered association lists (serde's map iterates its entries in order; all
objects constructed below carry distinct keys). -/
inductive Json where
  | null : Json
  | boolJ : Bool → Json
  | numJ : Rat → Json
  | strJ : String → Json
  | arrJ : List Json → Json
  | objJ : List (String × Json) → Json

/-- First-match association lookup (`serde_json::Map::get`). -/
def lookupF : List (String × Json) → String → Option Json
  | [], _ => none
  | (k, v) :: rest, key => if k = key then some v else lookupF rest key

/-- `Map::contains_key`. -/
def containsKeyF (fields : List (String × Json)) (key : String) : Bool :=
  (lookupF fields key).isSome

/-- serde's `Value` indexing `v[key]`: the member when present, `Null`
otherwise. -/
def jsonIndex (j : Json) (key : String) : Json :=
  match j with
  | .objJ fields => (lookupF fields key).getD .null
  | _ => .null

/-- `Value::as_bool`. -/
def jsonAsBool : Json → Option Bool
  | .boolJ b => some b
  | _ => none

/-- `String: PartialEq<Value>`: equal exactly when the value is a string
with the same content. -/
def valueEqStr (v : Json) (s : String) : Bool :=
  match v with
  | .strJ t => t = s
  | _ => false

/-! ## Filter task (`worker/src/task/filter/mod.rs`) -/

/-- Number of times the per-object check of `search_json` pushes for one
object: zero when `searchKey` is absent; otherwise per the condition arms
(the array arm of `contains` pushes once per equal element; an unknown
condition only logs). -/
def matchCount (fields : List (String × Json)) (key sval cond : String) : Nat :=
  match lookupF fields key with
  | none => 0
  | some v =>
    if cond = "=" then (if valueEqStr v sval then 1 else 0)
    else if cond = "!=" then (if valueEqStr v sval then 0 else 1)
    else if cond = "contains" then
      match v with
      | .strJ s => if strContains s sval then 1 else 0
      | .arrJ items => (items.filter (fun it => valueEqStr it sval)).length
      | .objJ f2 => if containsKeyF f2 sval then 1 else 0
      | _ => 0
    else if cond = "startsWith" then
      match v with
      | .strJ s => if s.startsWith sval then 1 else 0
      | _ => 0
    else if cond = ">" then
      match v with
      | .numJ q => if (parseFloat sval).getD 0 < q then 1 else 0
      | _ => 0
    else if cond = "<" then
      match v with
      | .numJ q => if q < (parseFloat sval).getD 0 then 1 else 0
      | _ => 0
    else 0

mutual

/-- `search_json` from `worker/src/task/filter/mod.rs`: depth-first walk
accumulating pushes into `acc` (the `&mut Vec` argument); each match pushes
`parent` when set, else the current object; every recursive call passes
`parent` through UNCHANGED, exactly as the source does. -/
def searchJson (j : Json) (key sval cond : String) (parent : Option Json)
    (acc : List Json) : List Json :=
  match j with
  | .objJ fields =>
    let hit := match parent with | some p => p | none => .objJ fields
    let acc1 := acc ++ List.replicate (matchCount fields key sval cond) hit
    searchFields fields key sval cond parent acc1
  | .arrJ items => searchItems items key sval cond parent acc
  | _ => acc

/-- The member-iteration loop of `search_json` over an object's entries. -/
def searchFields (l : List (String × Json)) (key sval cond : String)
    (parent : Option Json) (acc : List Json) : List Json :=
  match l with
  | [] => acc
  | (_, v) :: rest =>
    searchFields rest key sval cond parent (searchJson v key sval cond parent acc)

/-- The element-iteration loop of `search_json` over an array. -/
def searchItems (l : List Json) (key sval cond : String) (parent : Option Json)
    (acc : List Json) : List Json :=
  match l with
  | [] => acc
  | v :: rest =>
    searchItems rest key sval cond parent (searchJson v key sval cond parent acc)

end

mutual

/-- Specification-style depth-first collection of matches: every matching
object contributes itself (never a parent), pre-order. -/
def collectMatches (j : Json) (key sval cond : String) : List Json :=
  match j with
  | .objJ fields =>
    List.replicate (matchCount fields key sval cond) (.objJ fields) ++
      collectFields fields key sval cond
  | .arrJ items => collectItems items key sval cond
  | _ => []

/-- Member-wise collection over an object's entries. -/
def collectFields (l : List (String × Json)) (key sval cond : String) : List Json :=
  match l with
  | [] => []
  | (_, v) :: rest => collectMatches v key sval cond ++ collectFields rest key sval cond

/-- Element-wise collection over an array. -/
def collectItems (l : List Json) (key sval cond : String) : List Json :=
  match l with
  | [] => []
  | v :: rest => collectMatches v key sval cond ++ collectItems rest key sval cond

end

/-- `Filter` from `worker/src/task/filter/mod.rs`. -/
structure FilterL where
  objectToFilter : String
  jsonObj : Option Json
  searchKey : String
  searchValue : String
  condition : String

/-- `Filter::execute`: run `search_json` over the prepared JSON (with no
parent and an empty result vector) and wrap the matches. -/
def FilterL.execute (f : FilterL) : Json :=
  let res : List Json :=
    match f.jsonObj with
    | some j => searchJson j f.searchKey f.searchValue f.condition none []
    | none => []
  .objJ [("statusCode", .boolJ (if res.length > 0 then true else false)),
         ("response", .objJ [("results", .arrJ res), ("count", .numJ (res.length : Rat))])]

mutual

theorem searchJson_eq_collect (j : Json) (key sval cond : String) (acc : List Json) :
    searchJson j key sval cond none acc = acc ++ collectMatches j key sval cond := by
  match j with
  | .null => simp [searchJson, collectMatches]
  | .boolJ b => simp [searchJson, collectMatches]
  | .numJ q => simp [searchJson, collectMatches]
  | .strJ s => simp [searchJson, collectMatches]
  | .arrJ items =>
    rw [searchJson, collectMatches]
    exact searchItems_eq_collect items key sval cond acc
  | .objJ fields =>
    rw [searchJson, collectMatches]
    rw [searchFields_eq_collect fields key sval cond _]
    simp

theorem searchFields_eq_collect (l : List (String × Json)) (key sval cond : String)
    (acc : List Json) :
    searchFields l key sval cond none acc = acc ++ collectFields l key sval cond := by
  match l with
  | [] => simp [searchFields, collectFields]
  | (k, v) :: rest =>
    rw [searchFields, collectFields]
    rw [searchJson_eq_collect v key sval cond acc]
    rw [searchFields_eq_collect rest key sval cond _]
    simp

theorem searchItems_eq_collect (l : List Json) (key sval cond : String)
    (acc : List Json) :
    searchItems l key sval cond none acc = acc ++ collectItems l key sval cond := by
  match l with
  | [] => simp [searchItems, collectItems]
  | v :: rest =>
    rw [searchItems, collectItems]
    rw [searchJson_eq_collect v key sval cond acc]
    rw [searchItems_eq_collect rest key sval cond _]
    simp

end

mutual

theorem collectMatches_unknown_cond (j : Json) (key sval cond : String)
    (h : cond ≠ "=" ∧ cond ≠ "!=" ∧ cond ≠ "contains" ∧ cond ≠ "startsWith" ∧
      cond ≠ ">" ∧ cond ≠ "<") :
    collectMatches j key sval cond = [] := by
  match j with
  | .null => simp [collectMatches]
  | .boolJ b => simp [collectMatches]
  | .numJ q => simp [collectMatches]
  | .strJ s => simp [collectMatches]
  | .arrJ items =>
    rw [collectMatches]
    exact collectItems_unknown_cond items key sval cond h
  | .objJ fields =>
    rw [collectMatches]
    have hm : matchCount fields key sval cond = 0 := by
      rw [matchCount]
      cases lookupF fields key with
      | none => rfl
      | some v =>
        simp only [h.1, h.2.1, h.2.2.1, h.2.2.2.1, h.2.2.2.2.1, h.2.2.2.2.2, if_false]
    rw [hm]
    simpa using collectFields_unknown_cond fields key sval cond h

theorem collectFields_unknown_cond (l : List (String × Json)) (key sval cond : String)
    (h : cond ≠ "=" ∧ cond ≠ "!=" ∧ cond ≠ "contains" ∧ cond ≠ "startsWith" ∧
      cond ≠ ">" ∧ cond ≠ "<") :
    collectFields l key sval cond = [] := by
  match l with
  | [] => rw [collectFields]
  | (k, v) :: rest =>
    rw [collectFields]
    rw [collectMatches_unknown_cond v key sval cond h]
    simpa using collectFields_unknown_cond rest key sval cond h

theorem collectItems_unknown_cond (l : List Json) (key sval cond : String)
    (h : cond ≠ "=" ∧ cond ≠ "!=" ∧ cond ≠ "contains" ∧ cond ≠ "startsWith" ∧
      cond ≠ ">" ∧ cond ≠ "<") :
    collectItems l key sval cond = [] := by
  match l with
  | [] => rw [collectItems]
  | v :: rest =>
    rw [collectItems]
    rw [collectMatches_unknown_cond v key sval cond h]
    simpa using collectItems_unknown_cond rest key sval cond h

end

/-- A matching object nested one level down. -/
def innerJ : Json := .objJ [("k", .strJ "v")]

/-- Its parent object, through which the traversal descends. -/
def outerJ : Json := .objJ [("a", innerJ)]

/-- C7 counterexample: `search_json` never emits a parent.  On
`\x7b a: \x7b k: v \x7d \x7d` with `searchKey = k`, `searchValue = v`,
condition `=`, the traversal descends through the parent into the inner
object and the match emits the inner object itself, not the parent: every
recursive call of `search_json` forwards its `parent` argument unchanged and
the top-level call passes `None`, so the parent branch is unreachable. -/
theorem c7_counterexample_parent_never_emitted :
    searchJson outerJ "k" "v" "=" none [] = [innerJ] ∧ innerJ ≠ outerJ := by
  constructor
  · rfl
  · simp [innerJ, outerJ]

/-- C7 amended: filter execution traverses the parsed JSON depth-first and
at every object containing `searchKey` whose predicate matches it emits the
matching object ITSELF (the parent parameter is passed unchanged and starts
as `None`, so a parent value is never emitted); the result is
`statusCode = matches.len > 0` with `results`/`count` in `response`, and an
unknown condition yields zero matches. -/
theorem c7_filter_search_amended :
    (∀ (j : Json) (key sval cond : String) (acc : List Json),
        searchJson j key sval cond none acc = acc ++ collectMatches j key sval cond) ∧
    (∀ (f : FilterL) (j : Json), f.jsonObj = some j →
        f.execute =
          .objJ [("statusCode",
                    .boolJ (if (collectMatches j f.searchKey f.searchValue f.condition).length > 0
                      then true else false)),
                 ("response",
                    .objJ [("results", .arrJ (collectMatches j f.searchKey f.searchValue f.condition)),
                           ("count",
                             .numJ ((collectMatches j f.searchKey f.searchValue f.condition).length : Rat))])]) ∧
    (∀ (j : Json) (key sval cond : String),
        cond ≠ "=" → cond ≠ "!=" → cond ≠ "contains" → cond ≠ "startsWith" →
        cond ≠ ">" → cond ≠ "<" →
        collectMatches j key sval cond = []) := by
  refine ⟨searchJson_eq_collect, fun f j hj => ?_, fun j key sval cond h1 h2 h3 h4 h5 h6 =>
    collectMatches_unknown_cond j key sval cond ⟨h1, h2, h3, h4, h5, h6⟩⟩
  rw [FilterL.execute, hj]
  have h := searchJson_eq_collect j f.searchKey f.searchValue f.condition []
  simp [h]

/-- Witness for C7's amended theorem at a concrete filter: the nested
example above and an unknown condition. -/
theorem c7_filter_search_amended_witness :
    (FilterL.mk "o" (some outerJ) "k" "v" "=").execute =
      .objJ [("statusCode", .boolJ true),
             ("response", .objJ [("results", .arrJ [innerJ]), ("count", .numJ 1)])] ∧
    collectMatches outerJ "k" "v" "unknownCondition" = [] := by
  constructor
  · have h := c7_filter_search_amended.2.1 (FilterL.mk "o" (some outerJ) "k" "v" "=") outerJ rfl
    rw [h]
    rfl
  · exact c7_filter_search_amended.2.2 outerJ "k" "v" "unknownCondition"
      (by decide) (by decide) (by decide) (by decide) (by decide) (by decide)

/-! ## Tasks and configuration (`worker/src/task/mod.rs`, `worker/src/lib.rs`) -/

/-- `Next` from `common/src/worker.rs`: the true/false branch references. -/
structure NextL where
  trueBranch : Option String
  falseBranch : Option String
deriving DecidableEq, Repr

/-- `TaskOutput` from `worker/src/task/mod.rs`. -/
inductive TaskOutputL where
  | conditionalResult : Json → TaskOutputL
  | loopResult : Bool → TaskOutputL
  | endpointResult : Json → TaskOutputL
  | webhookResult : Json → TaskOutputL
  | filterResult : Json → TaskOutputL

/-- `HashMap::insert` on the outputs map: replace an existing key's value,
else append. -/
def insertOut (outputs : List (String × Json)) (k : String) (v : Json) :
    List (String × Json) :=
  if containsKeyF outputs k then
    outputs.map (fun p => if p.1 = k then (k, v) else p)
  else outputs ++ [(k, v)]

/-- The value `Endpoint::execute` returns on a completed request
(`worker/src/task/endpoint/mod.rs`): the remote status and parsed body. -/
def endpointExecuteResult (status : Rat) (body : Json) : Json :=
  .objJ [("statusCode", .numJ status), ("response", body)]

/-- The two HTTP-backed arms of `Task::execute`. -/
inductive HttpKind where
  | endpointK : HttpKind
  | webhookK : HttpKind

/-- The `Handler::Endpoint` and `Handler::Webhook` arms of `Task::execute`
(`worker/src/task/mod.rs`): `raw` is the awaited `Endpoint::execute` result
(both kinds run the same handler).  The endpoint arm stores
`result["response"]` in outputs and reports the full result; the webhook arm
stores the full result and reports the synthetic
`statusCode 200 / Webhook sent` envelope. -/
def taskExecuteHttp (kind : HttpKind) (reactId : String) (raw : Except String Json)
    (outputs : List (String × Json)) : Except String (TaskOutputL × List (String × Json)) :=
  match kind, raw with
  | .endpointK, .ok result =>
    .ok (.endpointResult result, insertOut outputs reactId (jsonIndex result "response"))
  | .endpointK, .error e => .error ("Endpoint task failed: " ++ e)
  | .webhookK, .ok result =>
    .ok (.webhookResult (.objJ [("statusCode", .numJ 200), ("response", .strJ "Webhook sent")]),
         insertOut outputs reactId result)
  | .webhookK, .error e => .error ("Webhook task failed: " ++ e)

/-- C5: a successful webhook task stores the raw response (the actual remote
status and body) in outputs under its reactId while reporting the synthetic
envelope `statusCode 200 / Webhook sent` to the interpreter, regardless of
the remote status; a successful endpoint task stores only the `response`
field in outputs while reporting the full envelope. -/
theorem c5_webhook_endpoint_output_envelopes :
    ∀ (rid : String) (outputs : List (String × Json)) (status : Rat) (body : Json),
      taskExecuteHttp .webhookK rid (.ok (endpointExecuteResult status body)) outputs =
        .ok (.webhookResult (.objJ [("statusCode", .numJ 200), ("response", .strJ "Webhook sent")]),
             insertOut outputs rid (endpointExecuteResult status body)) ∧
      taskExecuteHttp .endpointK rid (.ok (endpointExecuteResult status body)) outputs =
        .ok (.endpointResult (endpointExecuteResult status body), insertOut outputs rid body) := by
  intro rid outputs status body
  constructor
  · rfl
  · show Except.ok (TaskOutputL.endpointResult (endpointExecuteResult status body),
      insertOut outputs rid (jsonIndex (endpointExecuteResult status body) "response")) = _
    have h : jsonIndex (endpointExecuteResult status body) "response" = body := by
      simp [jsonIndex, endpointExecuteResult, lookupF]
    rw [h]

/-- `Header` from `common/src/worker.rs`. -/
structure HeaderL where
  key : String
  value : String
deriving DecidableEq, Repr

/-- `EndpointFields` from `common/src/worker.rs` (query params in the nested
frontend wire shape `param -> inner map`). -/
structure EndpointFieldsL where
  method : String
  headers : Option (List HeaderL)
  pathParams : Option (List (String × String))
  queryParams : Option (List (String × List (String × String)))
  body : Option Json
  targetUrl : String

/-- `FilterFields` from `common/src/worker.rs`. -/
structure FilterFieldsL where
  condition : String
  objectToFilter : String
  searchKey : String
  searchValue : String
deriving DecidableEq, Repr

mutual

/-- `TaskFields` from `common/src/worker.rs` (the untagged variants). -/
inductive TaskFieldsL where
  | endpointF : EndpointFieldsL → TaskFieldsL
  | loopF : List TaskConfigL → TaskFieldsL
  | conditionalF : List ConditionGroupL → TaskFieldsL
  | filterF : FilterFieldsL → TaskFieldsL

/-- `TaskConfig` from `common/src/worker.rs`; the fields the worker engine
consults (UUIDs as naturals, the task's asset block reduced to its schema,
which is all `Task::from_config` reads from it). -/
inductive TaskConfigL where
  | mk : (name : Option String) → (vendor : Option String) → (category : Option String) →
      (reactId : String) → (needsToWait : Bool) → (fields : TaskFieldsL) →
      (next : Option NextL) → (schema : Option (List (String × String))) →
      (integrationId : Option Nat) → TaskConfigL

end

/-- The `react_id` field of a `TaskConfig`. -/
def TaskConfigL.reactId : TaskConfigL → String
  | .mk _ _ _ r _ _ _ _ _ => r

/-- The `type` (category) field of a `TaskConfig`. -/
def TaskConfigL.category : TaskConfigL → Option String
  | .mk _ _ c _ _ _ _ _ _ => c

/-- The `fields` of a `TaskConfig`. -/
def TaskConfigL.fields : TaskConfigL → TaskFieldsL
  | .mk _ _ _ _ _ f _ _ _ => f

/-- The `integration_id` of a `TaskConfig`. -/
def TaskConfigL.integrationId : TaskConfigL → Option Nat
  | .mk _ _ _ _ _ _ _ _ i => i

/-- The `next` of a `TaskConfig`. -/
def TaskConfigL.nextOf : TaskConfigL → Option NextL
  | .mk _ _ _ _ _ _ n _ _ => n

/-- `Endpoint` from `worker/src/task/endpoint/mod.rs` as built by
`Task::from_config` (integration not yet resolved, query params flattened). -/
structure EndpointL where
  vendor : String
  integrationId : Option Nat
  method : String
  headers : Option (List HeaderL)
  pathParams : Option (List (String × String))
  queryParams : Option (List (String × String))
  body : Option Json
  targetUrl : String

mutual

/-- `Handler` from `worker/src/task/mod.rs`. -/
inductive HandlerL where
  | endpointH : EndpointL → HandlerL
  | conditionalH : List ConditionGroupL → HandlerL
  | loopH : List TaskL → Option (List (String × String)) → HandlerL
  | webhookH : EndpointL → HandlerL
  | filterH : FilterL → HandlerL

/-- `Task` from `worker/src/task/mod.rs` (asset vars are built at prepare
time and are not part of the derived task). -/
inductive TaskL where
  | mk : (name : String) → (reactId : String) → (next : Option NextL) →
      (needsToWait : Bool) → (handler : HandlerL) → TaskL

end

/-- The `react_id` of a derived `Task`. -/
def TaskL.reactId : TaskL → String
  | .mk _ r _ _ _ => r

/-- The `next` of a derived `Task`. -/
def TaskL.nextOf : TaskL → Option NextL
  | .mk _ _ n _ _ => n

/-- The `needs_to_wait` of a derived `Task`. -/
def TaskL.needsToWait : TaskL → Bool
  | .mk _ _ _ w _ => w

/-- First-match association lookup on string pairs. -/
def lookupS : List (String × String) → String → Option String
  | [], _ => none
  | (k, v) :: rest, key => if k = key then some v else lookupS rest key

/-- The query-param flattening in `Task::from_config`: each nested value map
must hold a `value` key; a missing one is an `unwrap` panic. -/
def convQueryParams : Option (List (String × List (String × String))) →
    Except FailKind (Option (List (String × String)))
  | none => .ok none
  | some qps =>
    (qps.mapM (fun (p : String × List (String × String)) =>
      match lookupS p.2 "value" with
      | some v => Except.ok (p.1, v)
      | none => Except.error (FailKind.panicF "called Option::unwrap on a None value"))).map some

mutual

/-- `Task::from_config` from `worker/src/task/mod.rs`: flatten query params,
then dispatch on the untagged fields variant; an endpoint-shaped task with
category `webhook` becomes a Webhook, any other present category requires an
integration id, an absent category is the `unknown task category` error;
loop sub-configs are converted with `.unwrap()`, so an inner error panics. -/
def TaskL.fromConfig : TaskConfigL → Except FailKind TaskL
  | .mk name vendor category reactId needsToWait fields next schema integrationId =>
    match fields with
    | .endpointF ef =>
      match convQueryParams ef.queryParams with
      | .error e => .error e
      | .ok qp =>
        let e : EndpointL :=
          ⟨vendor.getD "", integrationId, ef.method, ef.headers, ef.pathParams, qp,
            ef.body, ef.targetUrl⟩
        match category with
        | some c =>
          if c = "webhook" then
            .ok (.mk (name.getD "") reactId next needsToWait (.webhookH e))
          else
            match integrationId with
            | none => .error (.err "Endpoint task must have an integration")
            | some _ => .ok (.mk (name.getD "") reactId next needsToWait (.endpointH e))
        | none => .error (.err "unknown task category")
    | .conditionalF expr =>
      .ok (.mk (name.getD "") reactId next needsToWait (.conditionalH expr))
    | .loopF configs =>
      match fromConfigListUnwrap configs with
      | .error e => .error e
      | .ok ts => .ok (.mk (name.getD "") reactId next needsToWait (.loopH ts schema))
    | .filterF ff =>
      .ok (.mk (name.getD "") reactId next needsToWait
        (.filterH ⟨ff.objectToFilter, none, ff.searchKey, ff.searchValue, ff.condition⟩))

/-- The `map(.. Task::from_config(..).unwrap())` over a loop's sub-configs:
a returned error becomes a panic. -/
def fromConfigListUnwrap : List TaskConfigL → Except FailKind (List TaskL)
  | [] => .ok []
  | c :: rest =>
    match TaskL.fromConfig c with
    | .ok t =>
      match fromConfigListUnwrap rest with
      | .ok ts => .ok (t :: ts)
      | .error e => .error e
    | .error (.err _) => .error (.panicF "called Result::unwrap on an Err value")
    | .error (.panicF m) => .error (.panicF m)

end

/-- `Worker` from `worker/src/lib.rs` (derived form). -/
structure WorkerL where
  name : String
  id : Nat
  tenantId : Nat
  tasks : List (String × TaskL)
  start : String
  latestTask : Option String
  custom : Option Json
  global : Option Json

/-- `WorkerConfig` from `common/src/worker.rs` (the fields
`Worker::from_config` reads). -/
structure WorkerConfigL where
  name : String
  id : Nat
  tenantId : Nat
  tasks : List TaskConfigL
  global : Option Json
  custom : Option Json

/-- The task-conversion loop of `Worker::from_config`: convert every config
in order, propagating the first failure, keying each task by its reactId. -/
def buildTaskMap : List TaskConfigL → Except FailKind (List (String × TaskL))
  | [] => .ok []
  | c :: rest =>
    match TaskL.fromConfig c with
    | .error e => .error e
    | .ok t =>
      match buildTaskMap rest with
      | .error e => .error e
      | .ok r => .ok ((c.reactId, t) :: r)

/-- `Worker::from_config` from `worker/src/lib.rs`: the start task is
`tasks[0]` (a panic when the list is empty); no validation of `next`
references or categories happens here beyond `Task::from_config`. -/
def WorkerL.fromConfig (cfg : WorkerConfigL) : Except FailKind WorkerL :=
  match cfg.tasks with
  | [] => .error (.panicF "index out of bounds")
  | t0 :: _ =>
    match buildTaskMap cfg.tasks with
    | .error e => .error e
    | .ok tasks =>
      .ok ⟨cfg.name, cfg.id, cfg.tenantId, tasks, t0.reactId, none, cfg.custom, cfg.global⟩

/-- Whether an `Except` holds a success. -/
def exceptIsOk {α : Type} : Except FailKind α → Bool
  | .ok _ => true
  | .error _ => false

theorem taskFromConfig_bad_endpoint (c : TaskConfigL) (ef : EndpointFieldsL)
    (hf : c.fields = .endpointF ef)
    (hbad : c.category = none ∨
      (∃ s, c.category = some s ∧ s ≠ "webhook" ∧ c.integrationId = none)) :
    exceptIsOk (TaskL.fromConfig c) = false := by
  match c with
  | .mk name vendor category reactId needsToWait fields next schema integrationId =>
    simp only [TaskConfigL.fields] at hf
    simp only [TaskConfigL.category, TaskConfigL.integrationId] at hbad
    subst hf
    rw [TaskL.fromConfig]
    cases hq : convQueryParams ef.queryParams with
    | error e => simp [exceptIsOk]
    | ok qp =>
      rcases hbad with hnone | ⟨s, hs, hnw, hid⟩
      · subst hnone
        simp [exceptIsOk]
      · subst hs
        subst hid
        simp [exceptIsOk, hnw]

theorem buildTaskMap_mem_bad (l : List TaskConfigL) (c : TaskConfigL)
    (hmem : c ∈ l) (hbad : exceptIsOk (TaskL.fromConfig c) = false) :
    exceptIsOk (buildTaskMap l) = false := by
  induction l with
  | nil => cases hmem
  | cons hd tl ih =>
    rw [buildTaskMap]
    rcases List.mem_cons.mp hmem with hc | hc
    · subst hc
      cases hfc : TaskL.fromConfig c with
      | error e => simp [exceptIsOk]
      | ok t => rw [hfc] at hbad; simp [exceptIsOk] at hbad
    · cases hfc : TaskL.fromConfig hd with
      | error e => simp [exceptIsOk]
      | ok t =>
        have := ih hc
        cases hb : buildTaskMap tl with
        | error e => simp [exceptIsOk]
        | ok r => rw [hb] at this; simp [exceptIsOk] at this

/-- C8 amended: `Worker::from_config` fails for an endpoint-shaped task with
no category (`unknown task category`) and for an endpoint-shaped task with a
non-webhook category and no integrationId, so no invocation starts from such
a config; unknown categories carrying an integration are accepted as
endpoint tasks and dangling `next` references are not checked at all. -/
theorem c8_from_config_rejects_amended :
    ∀ (cfg : WorkerConfigL) (c : TaskConfigL) (ef : EndpointFieldsL),
      c ∈ cfg.tasks → c.fields = .endpointF ef →
      (c.category = none ∨
        (∃ s, c.category = some s ∧ s ≠ "webhook" ∧ c.integrationId = none)) →
      exceptIsOk (WorkerL.fromConfig cfg) = false := by
  intro cfg c ef hmem hf hbad
  have hctask := taskFromConfig_bad_endpoint c ef hf hbad
  have hbuild := buildTaskMap_mem_bad cfg.tasks c hmem hctask
  rw [WorkerL.fromConfig]
  match htasks : cfg.tasks, hmem with
  | t0 :: rest, _ =>
    rw [htasks] at hbuild
    cases hb : buildTaskMap (t0 :: rest) with
    | error e => simp [exceptIsOk]
    | ok r => rw [hb] at hbuild; simp [exceptIsOk] at hbuild

/-- An endpoint-shaped task with an unknown category, an integration id and
a `next.true` reference to a reactId that no task carries. -/
def taskDangling : TaskConfigL :=
  .mk (some "t") (some "meraki") (some "mysteryKind") "t1" false
    (.endpointF ⟨"GET", none, none, none, none, "http://example.com"⟩)
    (some ⟨some "nowhere", none⟩) none (some 7)

/-- A one-task config whose only `next.true` reference dangles. -/
def cfgDangling : WorkerConfigL := ⟨"w", 1, 2, [taskDangling], none, none⟩

/-- C8 counterexample: a config whose single task has the unknown category
`mysteryKind` and whose `next.true` names `nowhere`, a reactId present in no
task, is accepted by `Worker::from_config` — neither malformation is
rejected, contradicting the claim that such configs return an error. -/
theorem c8_counterexample_dangling_next_accepted :
    exceptIsOk (WorkerL.fromConfig cfgDangling) = true ∧
    taskDangling.nextOf = some ⟨some "nowhere", none⟩ ∧
    cfgDangling.tasks.map TaskConfigL.reactId = ["t1"] ∧
    taskDangling.category = some "mysteryKind" ∧
    ("nowhere" ∈ cfgDangling.tasks.map TaskConfigL.reactId) = False := by
  refine ⟨rfl, rfl, rfl, rfl, ?_⟩
  simp only [eq_iff_iff, iff_false]
  intro h
  rw [show cfgDangling.tasks.map TaskConfigL.reactId = ["t1"] from rfl] at h
  simp at h

/-- An endpoint-shaped task with no category at all. -/
def taskNoCategory : TaskConfigL :=
  .mk (some "t") (some "meraki") none "t1" false
    (.endpointF ⟨"GET", none, none, none, none, "http://example.com"⟩)
    none none (some 7)

/-- Witness for C8's amended theorem: the category-less endpoint config is
rejected. -/
theorem c8_from_config_rejects_amended_witness :
    exceptIsOk (WorkerL.fromConfig ⟨"w", 1, 2, [taskNoCategory], none, none⟩) = false :=
  c8_from_config_rejects_amended ⟨"w", 1, 2, [taskNoCategory], none, none⟩
    taskNoCategory ⟨"GET", none, none, none, none, "http://example.com"⟩
    (by simp [taskNoCategory]) rfl (Or.inl rfl)

/-! ## Worker interpreter main loop (`WorkerInvocation::run`, `worker/src/lib.rs`) -/

/-- `Event` from `worker/src/lib.rs`. -/
inductive EventL where
  | workerStart | workerSuccess | workerFail | taskStart | taskSuccess | taskFail | apiFail
deriving DecidableEq, Repr

/-- `InvocationState` from `worker/src/lib.rs`. -/
inductive InvStateL where
  | pending | running | complete | failed | waiting
deriving DecidableEq, Repr

/-- The observable per-invocation state the main loop mutates: the ordered
log events (with the logged task's reactId), `worker.latest_task`, the
invocation state, and whether `suspend` has POSTed the serialized
invocation to the external store. -/
structure RunState where
  logs : List (EventL × Option String)
  latestTask : Option String
  invState : InvStateL
  persisted : Bool
deriving DecidableEq, Repr

/-- `WorkerInvocation::log`: append one event. -/
def logEv (st : RunState) (e : EventL) (rid : Option String) : RunState :=
  { st with logs := st.logs ++ [(e, rid)] }

/-- The branch-selection match of the main loop: Conditional and Filter
results read `result["statusCode"].as_bool().unwrap()` (a `None` is a
panic, reported as `none` here) and pick the true/false branch; every other
output kind always takes the true branch. -/
def selectBranch (r : TaskOutputL) (br : NextL) : Option (Option String) :=
  match r with
  | .conditionalResult v =>
    (jsonAsBool (jsonIndex v "statusCode")).map (fun b => if b then br.trueBranch else br.falseBranch)
  | .filterResult v =>
    (jsonAsBool (jsonIndex v "statusCode")).map (fun b => if b then br.trueBranch else br.falseBranch)
  | _ => some br.trueBranch

/-- Outcome of the main loop: a final state, a Rust panic, or exhausted
fuel (the source loop has no built-in bound). -/
inductive RunResult where
  | done : RunState → RunResult
  | panicked : RunResult
  | outOfFuel : RunResult
deriving DecidableEq, Repr

/-- `WorkerInvocation::run` from `worker/src/lib.rs` (lines 345-445).
`tasks` is the worker's reactId-to-task map, and `env` gives each task's
`execute` outcome (`prepare` and the double template render rewrite string
contents only and are absorbed into the environment).  Per iteration: log
`TaskStart`; on failure log `TaskFail` then `WorkerFail` and set `Failed`;
on success set `latest_task`, and when a `next` object is present select
the branch, then (in source order) suspend when `needs_to_wait` — setting
`Waiting` and persisting, with NO `TaskSuccess` log — else complete when
both branches are absent, else log `TaskSuccess` and continue; when `next`
is absent log `TaskSuccess` then `WorkerSuccess` and set `Complete` with no
suspension check. -/
def runLoop (tasks : String → Option TaskL) (env : String → Except String TaskOutputL) :
    Nat → RunState → Option TaskL → RunResult
  | _, st, none => .done st
  | 0, _, some _ => .outOfFuel
  | fuel + 1, st, some task =>
    let st1 := logEv st .taskStart (some task.reactId)
    match env task.reactId with
    | .error _ =>
      .done { logEv (logEv st1 .taskFail (some task.reactId)) .workerFail none with
        invState := .failed }
    | .ok result =>
      let st2 := { st1 with latestTask := some task.reactId }
      match task.nextOf with
      | some branches =>
        match selectBranch result branches with
        | none => .panicked
        | some nextName =>
          let nextTask := match nextName with | some nm => tasks nm | none => none
          if task.needsToWait then
            .done { st2 with invState := .waiting, persisted := true }
          else if branches.trueBranch = none ∧ branches.falseBranch = none then
            .done { logEv (logEv st2 .taskSuccess (some task.reactId)) .workerSuccess none with
              invState := .complete }
          else
            runLoop tasks env fuel (logEv st2 .taskSuccess (some task.reactId)) nextTask
      | none =>
        .done { logEv (logEv st2 .taskSuccess (some task.reactId)) .workerSuccess none with
          invState := .complete }

/-- A placeholder endpoint handler payload. -/
def epDummy : EndpointL := ⟨"", none, "GET", none, none, none, none, "http://example.com"⟩

/-- A suspending task carrying a `next` object with both branches absent. -/
def taskWaitA : TaskL := .mk "A" "A" (some ⟨none, none⟩) true (.endpointH epDummy)

/-- A suspending task whose `next` field is entirely absent. -/
def taskWaitB : TaskL := .mk "B" "B" none true (.endpointH epDummy)

/-- Task map containing only `taskWaitA`. -/
def tasksC1 : String → Option TaskL := fun s => if s = "A" then some taskWaitA else none

/-- Task map containing only `taskWaitB`. -/
def tasksC1B : String → Option TaskL := fun s => if s = "B" then some taskWaitB else none

/-- Environment in which every task's execute succeeds with a plain
endpoint result. -/
def envOk : String → Except String TaskOutputL :=
  fun _ => .ok (.endpointResult (endpointExecuteResult 200 .null))

/-- The state on entry to the main loop (`start` has set `Running`). -/
def st0 : RunState := ⟨[], none, .running, false⟩

/-- C1 counterexample: a task with `needsToWait` and a present `next`
suspends WITHOUT logging `TaskSuccess` (only `TaskStart` is in the log when
the loop returns), and a task with `needsToWait` but NO `next` object never
reaches the suspension check at all — it completes the worker without
persisting.  Both contradict the claim that every successfully executed
`needsToWait` task transitions to Waiting, persists, and logs
`TaskSuccess`. -/
theorem c1_counterexample_suspend_logs_no_task_success :
    runLoop tasksC1 envOk 5 st0 (some taskWaitA) =
      .done ⟨[(.taskStart, some "A")], some "A", .waiting, true⟩ ∧
    runLoop tasksC1B envOk 5 st0 (some taskWaitB) =
      .done ⟨[(.taskStart, some "B"), (.taskSuccess, some "B"), (.workerSuccess, none)],
        some "B", .complete, false⟩ := by
  constructor <;> rfl

/-- C1 amended: for every task with a `next` object present that executes
successfully (with a selectable branch) and has `needsToWait` set, the main
loop transitions the invocation state to Waiting, externally persists the
serialized invocation, and returns without executing further tasks — and
without logging `TaskSuccess` for that task (its log contribution is the
`TaskStart` alone); tasks whose `next` is absent never reach the suspension
check. -/
theorem c1_suspension_amended (tasks : String → Option TaskL)
    (env : String → Except String TaskOutputL) (fuel : Nat) (st : RunState)
    (task : TaskL) (branches : NextL) (r : TaskOutputL)
    (hnext : task.nextOf = some branches) (henv : env task.reactId = .ok r)
    (hsel : selectBranch r branches ≠ none) (hwait : task.needsToWait = true) :
    runLoop tasks env (fuel + 1) st (some task) =
      .done ⟨st.logs ++ [(.taskStart, some task.reactId)], some task.reactId, .waiting, true⟩ := by
  obtain ⟨nn, hnn⟩ := Option.ne_none_iff_exists'.mp hsel
  rw [runLoop]
  simp [henv, hnext, hnn, hwait, logEv]

/-- Witness for C1's amended theorem at the concrete suspending task. -/
theorem c1_suspension_amended_witness :
    runLoop tasksC1 envOk 3 st0 (some taskWaitA) =
      .done ⟨[(.taskStart, some "A")], some "A", .waiting, true⟩ := by
  have h := c1_suspension_amended tasksC1 envOk 2 st0 taskWaitA ⟨none, none⟩
    (.endpointResult (endpointExecuteResult 200 .null)) rfl rfl (by simp [selectBranch]) rfl
  simpa [st0, taskWaitA, TaskL.reactId] using h

/-- The conditional task of C9: true branch set, false branch unset. -/
def taskC9 : TaskL := .mk "C" "C" (some ⟨some "T", none⟩) false (.conditionalH [])

/-- The (never reached) true-branch target of C9. -/
def taskT9 : TaskL := .mk "T" "T" none false (.endpointH epDummy)

/-- Task map of C9. -/
def tasksC9 : String → Option TaskL :=
  fun s => if s = "C" then some taskC9 else if s = "T" then some taskT9 else none

/-- Environment of C9: the conditional evaluates successfully to `false`. -/
def envC9 : String → Except String TaskOutputL :=
  fun s =>
    if s = "C" then
      .ok (.conditionalResult (.objJ [("statusCode", .boolJ false),
        ("response", .objJ [("expression", .strJ "(1 == 2)")])]))
    else .ok (.endpointResult (endpointExecuteResult 200 .null))

/-- The final state of the C9 run. -/
def stC9 : RunState :=
  ⟨[(.taskStart, some "C"), (.taskSuccess, some "C")], some "C", .running, false⟩

/-- C9: a worker whose successful Conditional selects the unset false branch
while the true branch is set terminates the main loop with the invocation
state still `Running` — not Complete, Failed or Waiting — and with no
`worker_success` or `worker_fail` event logged. -/
theorem c9_loop_exits_running_on_unset_branch :
    runLoop tasksC9 envC9 5 st0 (some taskC9) = .done stC9 ∧
    stC9.invState = .running ∧
    (∀ rid : Option String,
      (EventL.workerSuccess, rid) ∉ stC9.logs ∧ (EventL.workerFail, rid) ∉ stC9.logs) := by
  refine ⟨by rfl, rfl, fun rid => ⟨?_, ?_⟩⟩ <;> simp [stC9]

/-- C10: for every task whose `next` field is entirely absent, a successful
execution logs `TaskSuccess` then `WorkerSuccess`, sets the state to
`Complete`, and returns — leaving the persisted flag untouched and never
suspending, whatever `needsToWait` holds, because the suspension check sits
inside the `next`-present branch. -/
theorem c10_no_next_completes_without_suspension (tasks : String → Option TaskL)
    (env : String → Except String TaskOutputL) (fuel : Nat) (st : RunState)
    (task : TaskL) (r : TaskOutputL)
    (hnext : task.nextOf = none) (henv : env task.reactId = .ok r) :
    runLoop tasks env (fuel + 1) st (some task) =
      .done ⟨st.logs ++ [(.taskStart, some task.reactId), (.taskSuccess, some task.reactId),
          (.workerSuccess, none)],
        some task.reactId, .complete, st.persisted⟩ := by
  rw [runLoop]
  simp [henv, hnext, logEv]

/-- Witness for C10 at the concrete `needsToWait` task with no `next`. -/
theorem c10_no_next_completes_without_suspension_witness :
    runLoop tasksC1B envOk 3 st0 (some taskWaitB) =
      .done ⟨[(.taskStart, some "B"), (.taskSuccess, some "B"), (.workerSuccess, none)],
        some "B", .complete, false⟩ := by
  have h := c10_no_next_completes_without_suspension tasksC1B envOk 2 st0 taskWaitB
    (.endpointResult (endpointExecuteResult 200 .null)) rfl rfl
  simpa [st0, taskWaitB, TaskL.reactId] using h

/-! ## Loop isolation (`impl Clone for WorkerInvocation`, `Loop::execute`) -/

/-- The three `Arc<Mutex<..>>` references an invocation holds: indices into
the heaps below.  Distinct indices model distinct `Arc` allocations. -/
structure CtxRefs where
  outputsRef : Nat
  stateRef : Nat
  assetsRef : Nat
deriving DecidableEq, Repr

/-- The shared-state heaps: each `Arc::new(Mutex::new(..))` allocates one
cell. -/
structure Heap where
  outputsH : List (List (String × Json))
  statesH : List InvStateL
  assetsH : List (List (String × Json))

/-- Read an invocation's outputs map through its reference. -/
def readOutputs (h : Heap) (i : Nat) : List (String × Json) :=
  (h.outputsH[i]?).getD []

/-- `impl Clone for WorkerInvocation` (`worker/src/lib.rs` lines 93-135):
the `outputs`, `state` and `assets` data are locked, deep-copied and
re-wrapped in `Arc::new(Mutex::new(..))` — here: fresh heap cells holding
copies, never the parent's indices. -/
def cloneInvocation (h : Heap) (c : CtxRefs) : Heap × CtxRefs :=
  (⟨h.outputsH ++ [readOutputs h c.outputsRef],
    h.statesH ++ [(h.statesH[c.stateRef]?).getD .pending],
    h.assetsH ++ [(h.assetsH[c.assetsRef]?).getD []]⟩,
   ⟨h.outputsH.length, h.statesH.length, h.assetsH.length⟩)

/-- Result of a loop body run: the heap, the accumulated log events and the
`Result<()>` of `Loop::execute`. -/
structure LoopOut where
  heap : Heap
  logs : List (EventL × Option String)
  result : Except String Unit

/-- The inner-task loop of `Loop::execute` for one object: log `TaskStart`,
run the task against the loop context (the effect of
`prepare`/render/`Task::execute` on the context's own outputs map is the
environment `innerExec`, which receives the loop context's current map and
returns its updated map plus the execute outcome), then on success log
`TaskSuccess` and apply the loop body's extra insert of
endpoint/webhook/conditional results, and on failure log `TaskFail` and
bail. -/
def runInnerTasks
    (innerExec : TaskL → Json → List (String × Json) →
      List (String × Json) × Except String TaskOutputL)
    (obj : Json) :
    List TaskL → Heap → CtxRefs → List (EventL × Option String) → LoopOut
  | [], h, _, logs => ⟨h, logs, .ok ()⟩
  | task :: rest, h, lc, logs =>
    let logs1 := logs ++ [(.taskStart, some task.reactId)]
    let step := innerExec task obj (readOutputs h lc.outputsRef)
    match step.2 with
    | .ok tr =>
      let newOut :=
        match tr with
        | .endpointResult v => insertOut step.1 task.reactId v
        | .webhookResult v => insertOut step.1 task.reactId v
        | .conditionalResult v => insertOut step.1 task.reactId v
        | _ => step.1
      let h2 : Heap := { h with outputsH := h.outputsH.set lc.outputsRef newOut }
      runInnerTasks innerExec obj rest h2 lc (logs1 ++ [(.taskSuccess, some task.reactId)])
    | .error _ =>
      let h2 : Heap := { h with outputsH := h.outputsH.set lc.outputsRef step.1 }
      ⟨h2, logs1 ++ [(.taskFail, some task.reactId)],
        .error "Loop task failed because an inner task failed"⟩

/-- `Loop::execute` (`worker/src/task/looping/mod.rs` lines 59-130): for
each object of `loop_assets`, clone the invocation into a fresh loop
context and run the contained tasks against that clone; any inner failure
fails the loop. -/
def loopExecute
    (innerExec : TaskL → Json → List (String × Json) →
      List (String × Json) × Except String TaskOutputL)
    (tasks : List TaskL) :
    List Json → Heap → CtxRefs → List (EventL × Option String) → LoopOut
  | [], h, _, logs => ⟨h, logs, .ok ()⟩
  | obj :: rest, h, ctx, logs =>
    let cloned := cloneInvocation h ctx
    let inner := runInnerTasks innerExec obj tasks cloned.1 cloned.2 logs
    match inner.result with
    | .ok _ => loopExecute innerExec tasks rest inner.heap ctx inner.logs
    | .error e => ⟨inner.heap, inner.logs, .error e⟩

theorem runInnerTasks_frame
    (innerExec : TaskL → Json → List (String × Json) →
      List (String × Json) × Except String TaskOutputL)
    (obj : Json) (tasks : List TaskL) :
    ∀ (h : Heap) (lc : CtxRefs) (logs : List (EventL × Option String)) (i : Nat),
      i ≠ lc.outputsRef →
      (runInnerTasks innerExec obj tasks h lc logs).heap.outputsH[i]? =
          h.outputsH[i]? ∧
        (runInnerTasks innerExec obj tasks h lc logs).heap.outputsH.length =
          h.outputsH.length := by
  induction tasks with
  | nil => intro h lc logs i hi; exact ⟨rfl, rfl⟩
  | cons task rest ih =>
    intro h lc logs i hi
    simp only [runInnerTasks]
    cases hstep : (innerExec task obj (readOutputs h lc.outputsRef)).2 with
    | ok tr =>
      simp only [hstep]
      refine ⟨((ih _ lc _ i hi).1).trans ?_, ((ih _ lc _ i hi).2).trans ?_⟩
      · exact List.getElem?_set_ne (fun hEq => hi hEq.symm)
      · simp
    | error e =>
      simp only [hstep]
      refine ⟨?_, by simp⟩
      exact List.getElem?_set_ne (fun hEq => hi hEq.symm)

theorem loopExecute_parent_frame
    (innerExec : TaskL → Json → List (String × Json) →
      List (String × Json) × Except String TaskOutputL)
    (tasks : List TaskL) (objects : List Json) :
    ∀ (h : Heap) (ctx : CtxRefs) (logs : List (EventL × Option String)),
      ctx.outputsRef < h.outputsH.length →
      (loopExecute innerExec tasks objects h ctx logs).heap.outputsH[ctx.outputsRef]? =
        h.outputsH[ctx.outputsRef]? := by
  induction objects with
  | nil => intro h ctx logs href; rfl
  | cons obj rest ih =>
    intro h ctx logs href
    simp only [loopExecute]
    have hne : ctx.outputsRef ≠ (cloneInvocation h ctx).2.outputsRef := by
      simp only [cloneInvocation]
      omega
    have hclone : (cloneInvocation h ctx).1.outputsH[ctx.outputsRef]? =
        h.outputsH[ctx.outputsRef]? := by
      simp only [cloneInvocation]
      exact List.getElem?_append_left href
    have hclonelen : (cloneInvocation h ctx).1.outputsH.length = h.outputsH.length + 1 := by
      simp [cloneInvocation]
    have hinner := runInnerTasks_frame innerExec obj tasks (cloneInvocation h ctx).1
      (cloneInvocation h ctx).2 logs ctx.outputsRef hne
    cases hres : (runInnerTasks innerExec obj tasks (cloneInvocation h ctx).1
        (cloneInvocation h ctx).2 logs).result with
    | ok u =>
      simp only [hres]
      have hlen : ctx.outputsRef <
          (runInnerTasks innerExec obj tasks (cloneInvocation h ctx).1
            (cloneInvocation h ctx).2 logs).heap.outputsH.length := by
        rw [hinner.2, hclonelen]; omega
      rw [ih _ ctx _ hlen, hinner.1, hclone]
    | error e =>
      simp only [hres]
      rw [hinner.1, hclone]

/-- C3: loop iterations run against an independently copied
outputs/state/assets container — the clone allocates fresh cells distinct
from the parent's — and whatever keys the inner tasks write to their loop
context's outputs, after `Loop::execute` returns the parent invocation's
outputs map is untouched: every key reads exactly as before the loop
(unchanged when present, absent when absent). -/
theorem c3_loop_output_isolation
    (innerExec : TaskL → Json → List (String × Json) →
      List (String × Json) × Except String TaskOutputL)
    (tasks : List TaskL) (objects : List Json) (h : Heap) (ctx : CtxRefs)
    (logs : List (EventL × Option String))
    (href : ctx.outputsRef < h.outputsH.length) :
    (∀ key : String,
      lookupF (readOutputs (loopExecute innerExec tasks objects h ctx logs).heap ctx.outputsRef) key =
        lookupF (readOutputs h ctx.outputsRef) key) ∧
    (cloneInvocation h ctx).2.outputsRef ≠ ctx.outputsRef ∧
    ((cloneInvocation h ctx).2.stateRef < h.statesH.length → False) ∧
    ((cloneInvocation h ctx).2.assetsRef < h.assetsH.length → False) := by
  refine ⟨fun key => ?_, ?_, ?_, ?_⟩
  · have hframe := loopExecute_parent_frame innerExec tasks objects h ctx logs href
    unfold readOutputs
    rw [hframe]
  · simp only [cloneInvocation]
    omega
  · simp only [cloneInvocation]
    omega
  · simp only [cloneInvocation]
    omega

/-- Witness for C3 at a concrete one-object, one-task loop whose inner task
writes a fresh key: the parent's map still reads that key as absent and the
pre-existing key as unchanged. -/
theorem c3_loop_output_isolation_witness :
    lookupF
      (readOutputs
        (loopExecute
          (fun task _ out => (insertOut out task.reactId (.strJ "written"), .ok (.loopResult true)))
          [taskT9] [Json.null] ⟨[[("pre", .strJ "old")]], [.running], [[]]⟩ ⟨0, 0, 0⟩ []).heap 0)
      "T" = none ∧
    lookupF
      (readOutputs
        (loopExecute
          (fun task _ out => (insertOut out task.reactId (.strJ "written"), .ok (.loopResult true)))
          [taskT9] [Json.null] ⟨[[("pre", .strJ "old")]], [.running], [[]]⟩ ⟨0, 0, 0⟩ []).heap 0)
      "pre" = some (.strJ "old") := by
  have h := c3_loop_output_isolation
    (fun task _ out => (insertOut out task.reactId (.strJ "written"), .ok (.loopResult true)))
    [taskT9] [Json.null] ⟨[[("pre", .strJ "old")]], [.running], [[]]⟩ ⟨0, 0, 0⟩ []
    (by simp)
  exact ⟨(h.1 "T").trans rfl, (h.1 "pre").trans rfl⟩

/-! ## Live-update hub (`api/src/websockets/server.rs`) -/

/-- `LiveUpdateServer` state, with the delivery traces of the client sinks:
`sessions` maps session id to sink id, `subscriptions` maps execution id to
the subscribed session ids (`HashMap` entries as functions to `Option`,
absent = `none`), `buffered_message` holds the replay buffer per execution
id, and `received` records each sink's delivered events in order.  Ids and
events are naturals. -/
structure HubState where
  sessions : Nat → Option Nat
  subscriptions : Nat → Option (List Nat)
  buffered : Nat → Option (List Nat)
  received : Nat → List Nat

/-- `HashSet::insert`. -/
def setInsert (l : List Nat) (x : Nat) : List Nat :=
  if l.contains x then l else l ++ [x]

/-- `LiveUpdateServer::new`: all maps empty, nothing delivered. -/
def hubInit : HubState :=
  ⟨fun _ => none, fun _ => none, fun _ => none, fun _ => []⟩

/-- `Handler<Subscribe>`: record the session's sink, add the session to the
execution's subscription set (creating it when absent), then drain any
buffered events to the subscribing client in order and drop the buffer
entry. -/
def hubSubscribe (st : HubState) (exe sid sink : Nat) : HubState :=
  let sessions1 := fun k => if k = sid then some sink else st.sessions k
  let subs1 := fun k =>
    if k = exe then some (setInsert ((st.subscriptions exe).getD []) sid)
    else st.subscriptions k
  match st.buffered exe with
  | some msgs =>
    { sessions := sessions1, subscriptions := subs1,
      buffered := fun k => if k = exe then none else st.buffered k,
      received := fun s => if s = sink then st.received s ++ msgs else st.received s }
  | none =>
    { sessions := sessions1, subscriptions := subs1,
      buffered := st.buffered, received := st.received }

/-- `Handler<Unsubscribe>`: drop the session, remove it from every
subscription set, and for every set that becomes empty drop both the set
and the execution's buffer entry. -/
def hubUnsubscribe (st : HubState) (sid : Nat) : HubState :=
  { sessions := fun k => if k = sid then none else st.sessions k,
    subscriptions := fun k =>
      match st.subscriptions k with
      | some clients =>
        let cl2 := clients.filter (fun c => c != sid)
        if cl2.isEmpty then none else some cl2
      | none => none,
    buffered := fun k =>
      match st.subscriptions k with
      | some clients =>
        let cl2 := clients.filter (fun c => c != sid)
        if cl2.isEmpty then none else st.buffered k
      | none => st.buffered k,
    received := st.received }

/-- `Handler<Publish>`: when a subscription set exists for the execution id
deliver a copy to every member's live sink; otherwise append the event to
the execution's buffer (creating it when absent). -/
def hubPublish (st : HubState) (exe ev : Nat) : HubState :=
  match st.subscriptions exe with
  | some clients =>
    { st with received :=
        clients.foldl (fun rec c =>
          match st.sessions c with
          | some sink => fun s => if s = sink then rec s ++ [ev] else rec s
          | none => rec) st.received }
  | none =>
    { st with buffered := fun k =>
        if k = exe then some (((st.buffered exe).getD []) ++ [ev]) else st.buffered k }

/-- States reachable from the empty hub by any message sequence. -/
inductive HubReachable : HubState → Prop where
  | init : HubReachable hubInit
  | subscribe (st : HubState) (exe sid sink : Nat) :
      HubReachable st → HubReachable (hubSubscribe st exe sid sink)
  | unsubscribe (st : HubState) (sid : Nat) :
      HubReachable st → HubReachable (hubUnsubscribe st sid)
  | publish (st : HubState) (exe ev : Nat) :
      HubReachable st → HubReachable (hubPublish st exe ev)

/-- The buffering invariant: a buffer entry exists only while the execution
id has no subscribed sessions. -/
def hubInv (st : HubState) : Prop :=
  ∀ exe, st.buffered exe ≠ none → (st.subscriptions exe).getD [] = []

theorem hubInv_init : hubInv hubInit := by
  intro exe hb
  simp [hubInit] at hb

theorem hubInv_subscribe (st : HubState) (exe sid sink : Nat) (h : hubInv st) :
    hubInv (hubSubscribe st exe sid sink) := by
  intro exe2 hb2
  unfold hubSubscribe at hb2 ⊢
  cases hbe : st.buffered exe with
  | some msgs =>
    rw [hbe] at hb2
    dsimp only at hb2 ⊢
    by_cases hx : exe2 = exe
    · rw [if_pos hx] at hb2
      exact absurd rfl hb2
    · rw [if_neg hx] at hb2
      rw [if_neg hx]
      exact h exe2 hb2
  | none =>
    rw [hbe] at hb2
    dsimp only at hb2 ⊢
    by_cases hx : exe2 = exe
    · rw [hx] at hb2
      exact absurd hbe hb2
    · rw [if_neg hx]
      exact h exe2 hb2

theorem hubInv_unsubscribe (st : HubState) (sid : Nat) (h : hubInv st) :
    hubInv (hubUnsubscribe st sid) := by
  intro exe2 hb2
  unfold hubUnsubscribe at hb2 ⊢
  dsimp only at hb2 ⊢
  cases hs : st.subscriptions exe2 with
  | none =>
    rw [hs] at hb2
    dsimp only at hb2 ⊢
    rfl
  | some clients =>
    rw [hs] at hb2
    dsimp only at hb2 ⊢
    by_cases hcl : (clients.filter (fun c => c != sid)).isEmpty = true
    · rw [if_pos hcl] at hb2
      exact absurd rfl hb2
    · rw [if_neg hcl] at hb2
      rw [if_neg hcl]
      have hclients : clients = [] := by
        have h2 := h exe2 hb2
        rw [hs] at h2
        simpa using h2
      subst hclients
      simp at hcl

theorem hubInv_publish (st : HubState) (exe ev : Nat) (h : hubInv st) :
    hubInv (hubPublish st exe ev) := by
  intro exe2 hb2
  unfold hubPublish at hb2 ⊢
  cases hs : st.subscriptions exe with
  | some clients =>
    rw [hs] at hb2
    dsimp only at hb2 ⊢
    exact h exe2 hb2
  | none =>
    rw [hs] at hb2
    dsimp only at hb2 ⊢
    by_cases hx : exe2 = exe
    · subst hx
      rw [hs]
      rfl
    · rw [if_neg hx] at hb2
      exact h exe2 hb2

theorem hubInv_reachable (st : HubState) (h : HubReachable st) : hubInv st := by
  induction h with
  | init => exact hubInv_init
  | subscribe st2 exe sid sink _ ih => exact hubInv_subscribe st2 exe sid sink ih
  | unsubscribe st2 sid _ ih => exact hubInv_unsubscribe st2 sid ih
  | publish st2 exe ev _ ih => exact hubInv_publish st2 exe ev ih

/-- C4: in every reachable hub state a buffered entry for an execution id
exists only while that id has no subscribed sessions; a Subscribe delivers
all buffered events for the id to the subscribing sink, appended in buffer
(publish) order, and removes the buffer entry; and a Publish with no
subscription set appends to the buffer in order, so the buffer always
holds the events in publish order. -/
theorem c4_hub_buffer_invariant_and_drain :
    (∀ st : HubState, HubReachable st →
      ∀ exe, st.buffered exe ≠ none → (st.subscriptions exe).getD [] = []) ∧
    (∀ (st : HubState) (exe sid sink : Nat),
      (hubSubscribe st exe sid sink).buffered exe = none ∧
      (hubSubscribe st exe sid sink).received sink =
        st.received sink ++ (st.buffered exe).getD []) ∧
    (∀ (st : HubState) (exe ev : Nat), st.subscriptions exe = none →
      (hubPublish st exe ev).buffered exe = some ((st.buffered exe).getD [] ++ [ev])) := by
  refine ⟨fun st h => hubInv_reachable st h, fun st exe sid sink => ?_, fun st exe ev hs => ?_⟩
  · unfold hubSubscribe
    cases hbe : st.buffered exe with
    | some msgs => simp [hbe]
    | none => simp [hbe]
  · unfold hubPublish
    rw [hs]
    simp

/-- Witness for C4 at a concrete run: two events published for execution 7
with no subscriber buffer in publish order, the first subscriber (session 5,
sink 9) drains them in order, the buffer entry disappears, and the
invariant holds at the buffered state. -/
theorem c4_hub_buffer_invariant_and_drain_witness :
    (hubSubscribe (hubPublish (hubPublish hubInit 7 1) 7 2) 7 5 9).received 9 = [1, 2] ∧
    (hubSubscribe (hubPublish (hubPublish hubInit 7 1) 7 2) 7 5 9).buffered 7 = none ∧
    ((hubPublish (hubPublish hubInit 7 1) 7 2).subscriptions 7).getD [] = [] := by
  refine ⟨?_, ?_, ?_⟩
  · have h := (c4_hub_buffer_invariant_and_drain.2.1 (hubPublish (hubPublish hubInit 7 1) 7 2) 7 5 9).2
    rw [h]
    rfl
  · exact (c4_hub_buffer_invariant_and_drain.2.1 (hubPublish (hubPublish hubInit 7 1) 7 2) 7 5 9).1
  · exact c4_hub_buffer_invariant_and_drain.1 (hubPublish (hubPublish hubInit 7 1) 7 2)
      ((HubReachable.publish _ 7 2) ((HubReachable.publish _ 7 1) HubReachable.init)) 7
      (by rw [show (hubPublish (hubPublish hubInit 7 1) 7 2).buffered 7 = some [1, 2] from rfl]; simp)

/-! ## Template engine (`WorkerInvocation::render_variables`, `worker/src/lib.rs`) -/

/-- One segment of a variable reference's normalized path: a quoted key
lookup or a bracketed index. -/
inductive SegT where
  | key : String → SegT
  | idx : Nat → SegT
deriving DecidableEq, Repr

/-- The serialized task as the single regex scan sees it: literal text
interleaved with variable references (scope, identifier, path tail). -/
inductive ChunkT where
  | lit : String → ChunkT
  | ref : Option String → String → List SegT → ChunkT

/-- The Tera template nodes the per-reference rewriting of
`render_variables` emits: literal text, a plain variable expression, or the
patched-Tera `if .. is defined` guard falling back to a literal. -/
inductive TNode where
  | lit : String → TNode
  | varN : List SegT → TNode
  | ifDef : List SegT → String → TNode

/-- The per-capture closure of `render_variables`: OUTPUT maps the task
name through the name-to-reactId map (default `default`) and wraps the
`output.<id><path>` lookup in an `is defined` guard with `undefined`
fallback; ASSET becomes a bare `asset.<vendor><path>` expression; CUSTOM
and GLOBAL become guardless single-key lookups (the path tail is dropped,
GLOBAL under the literal `GLOBAL:` prefixed key); any other scope is a
`panic!`; a bare name becomes an `is defined` guard on the identifier alone
with `undefined` fallback. -/
def translateChunk (taskNameMap : List (String × String)) : ChunkT → Except FailKind TNode
  | .lit s => .ok (.lit s)
  | .ref scope ident path =>
    match scope with
    | some sc =>
      if sc = "OUTPUT" then
        .ok (.ifDef (SegT.key "output" :: SegT.key ((lookupS taskNameMap ident).getD "default") :: path)
          "undefined")
      else if sc = "ASSET" then
        .ok (.varN (SegT.key "asset" :: SegT.key ident :: path))
      else if sc = "CUSTOM" then
        .ok (.varN [SegT.key "custom", SegT.key ident])
      else if sc = "GLOBAL" then
        .ok (.varN [SegT.key "global", SegT.key ("GLOBAL:" ++ ident)])
      else .error (.panicF ("Invalid variable type: " ++ sc))
    | none => .ok (.ifDef [SegT.key ident] "undefined")

/-- Descend a resolved context value along the remaining path. -/
def teraResolvePath (v : Json) : List SegT → Option Json
  | [] => some v
  | .key k :: rest =>
    match v with
    | .objJ fields =>
      match lookupF fields k with
      | some v2 => teraResolvePath v2 rest
      | none => none
    | _ => none
  | .idx n :: rest =>
    match v with
    | .arrJ items =>
      match items[n]? with
      | some v2 => teraResolvePath v2 rest
      | none => none
    | _ => none

/-- Tera variable resolution against the rendering context (a top-level
name followed by the path tail). -/
def teraResolve (ctx : List (String × Json)) : List SegT → Option Json
  | .key k :: rest => (lookupF ctx k).bind (fun v => teraResolvePath v rest)
  | _ => none

/-- Tera's stringification of a resolved value (primitive leaves; the
engine only renders leaf values in the properties below). -/
def teraToString : Json → String
  | .strJ s => s
  | .boolJ b => if b then "true" else "false"
  | .numJ q => toString q.num ++ (if q.den = 1 then "" else "/" ++ toString q.den)
  | .null => "null"
  | .arrJ _ => "[array]"
  | .objJ _ => "[object]"

/-- Render one Tera node: a plain variable expression on an unresolved path
is a Tera error; the `is defined` guard falls back to its literal. -/
def renderTNode (ctx : List (String × Json)) : TNode → Except FailKind String
  | .lit s => .ok s
  | .varN p =>
    match teraResolve ctx p with
    | some v => .ok (teraToString v)
    | none => .error (.err "Variable not found in context while rendering")
  | .ifDef p elseLit =>
    match teraResolve ctx p with
    | some v => .ok (teraToString v)
    | none => .ok elseLit

/-- Translate every chunk, propagating the unknown-scope panic. -/
def translateAll (taskNameMap : List (String × String)) :
    List ChunkT → Except FailKind (List TNode)
  | [] => .ok []
  | c :: rest =>
    match translateChunk taskNameMap c with
    | .error e => .error e
    | .ok n =>
      match translateAll taskNameMap rest with
      | .error e => .error e
      | .ok ns => .ok (n :: ns)

/-- Render every node, stopping at the first Tera error. -/
def renderAll (ctx : List (String × Json)) : List TNode → Except FailKind (List String)
  | [] => .ok []
  | n :: rest =>
    match renderTNode ctx n with
    | .error e => .error e
    | .ok s =>
      match renderAll ctx rest with
      | .error e => .error e
      | .ok ss => .ok (s :: ss)

/-- `WorkerInvocation::render_variables` (`worker/src/lib.rs` lines
447-553) over the scanned chunks: translate the references to Tera, render
against the context, and re-join; a Tera error reaches the
`unwrap_or_else(.. panic! ..)` and is a panic, not a returned error. -/
def renderVariables (taskNameMap : List (String × String)) (ctx : List (String × Json))
    (chunks : List ChunkT) : Except FailKind String :=
  match translateAll taskNameMap chunks with
  | .error e => .error e
  | .ok nodes =>
    match renderAll ctx nodes with
    | .ok parts => .ok (String.join parts)
    | .error _ => .error (.panicF "Failed to render task")

/-- A rendering context with all four scope maps present but empty. -/
def ctxC6 : List (String × Json) :=
  [("output", .objJ []), ("asset", .objJ []), ("custom", .objJ []),
   ("global", .objJ []), ("xpertlyRequestToken", .strJ "token")]

/-- C6 counterexample: an unresolved CUSTOM-scope reference does NOT render
to `undefined` — the generated `custom[..]` expression has no `is defined`
guard, Tera fails, and the `unwrap_or_else` panics the render; the same
happens for unresolved ASSET and GLOBAL references. -/
theorem c6_counterexample_custom_scope_fails :
    renderVariables [] ctxC6 [.ref (some "CUSTOM") "missing" []] =
      .error (.panicF "Failed to render task") ∧
    renderVariables [] ctxC6 [.ref (some "ASSET") "meraki" [.key "ip"]] =
      .error (.panicF "Failed to render task") ∧
    renderVariables [] ctxC6 [.ref (some "GLOBAL") "missing" []] =
      .error (.panicF "Failed to render task") := by
  refine ⟨rfl, rfl, rfl⟩

/-- C6 amended: an unresolved OUTPUT-scope reference and an unresolved bare
name render to the literal `undefined` without failing (their translations
carry the `is defined` guard); unresolved ASSET, CUSTOM and GLOBAL
references are guardless and fail the render with a panic. -/
theorem c6_undefined_fallback_amended :
    (∀ (taskNameMap : List (String × String)) (ctx : List (String × Json))
        (ident : String) (path : List SegT),
      teraResolve ctx (SegT.key "output" ::
          SegT.key ((lookupS taskNameMap ident).getD "default") :: path) = none →
      renderVariables taskNameMap ctx [.ref (some "OUTPUT") ident path] = .ok "undefined") ∧
    (∀ (taskNameMap : List (String × String)) (ctx : List (String × Json)) (ident : String)
        (path : List SegT),
      teraResolve ctx [SegT.key ident] = none →
      renderVariables taskNameMap ctx [.ref none ident path] = .ok "undefined") ∧
    (∀ (taskNameMap : List (String × String)) (ctx : List (String × Json)) (ident : String)
        (path : List SegT),
      teraResolve ctx (SegT.key "asset" :: SegT.key ident :: path) = none →
      renderVariables taskNameMap ctx [.ref (some "ASSET") ident path] =
        .error (.panicF "Failed to render task")) ∧
    (∀ (taskNameMap : List (String × String)) (ctx : List (String × Json)) (ident : String),
      teraResolve ctx [SegT.key "custom", SegT.key ident] = none →
      renderVariables taskNameMap ctx [.ref (some "CUSTOM") ident []] =
        .error (.panicF "Failed to render task")) ∧
    (∀ (taskNameMap : List (String × String)) (ctx : List (String × Json)) (ident : String),
      teraResolve ctx [SegT.key "global", SegT.key ("GLOBAL:" ++ ident)] = none →
      renderVariables taskNameMap ctx [.ref (some "GLOBAL") ident []] =
        .error (.panicF "Failed to render task")) := by
  refine ⟨fun map ctx ident path hres => ?_, fun map ctx ident path hres => ?_,
    fun map ctx ident path hres => ?_, fun map ctx ident hres => ?_,
    fun map ctx ident hres => ?_⟩ <;>
    simp [renderVariables, translateAll, translateChunk, renderAll, renderTNode, hres,
      String.join]

/-- Witness for C6's amended theorem: in the concrete empty-scope context
an unresolved OUTPUT reference and an unresolved bare name both render to
`undefined`, and an unresolved CUSTOM reference panics. -/
theorem c6_undefined_fallback_amended_witness :
    renderVariables [] ctxC6 [.ref (some "OUTPUT") "ghostTask" []] = .ok "undefined" ∧
    renderVariables [] ctxC6 [.ref none "neverDefined" []] = .ok "undefined" ∧
    renderVariables [] ctxC6 [.ref (some "CUSTOM") "missing" []] =
      .error (.panicF "Failed to render task") := by
  refine ⟨?_, ?_, ?_⟩
  · exact c6_undefined_fallback_amended.1 [] ctxC6 "ghostTask" [] rfl
  · exact c6_undefined_fallback_amended.2.1 [] ctxC6 "neverDefined" [] rfl
  · exact c6_undefined_fallback_amended.2.2.2.1 [] ctxC6 "missing" rfl
